import Mathlib

/-!
Verification of the data-extraction scripts (GitHub/GitLab contributor
activity).  The scripts are shallowly embedded: HTTP traffic is modelled by an
environment, a list of `(PageResponse, time)` pairs giving, in order, the
response and the wall-clock time observed by each iteration of a pagination
loop; `time.sleep` on a negative duration is modelled as the `ValueError` it
raises in Python; exceptions become explicit error constructors.
-/

/-- Rate-limit headers as read by the fetch loops: the remaining-quota header
(`X-RateLimit-Remaining` / `RateLimit-Remaining`) together with the reset-time
header (`X-RateLimit-Reset` / `RateLimit-Reset`).  The loops read the reset
header exactly when the remaining header is present, so the two are modelled
as present or absent together. -/
structure RateLimit where
  remaining : Int
  reset : Int
deriving DecidableEq

/-- One HTTP response as consumed by a pagination loop: optional rate-limit
headers, status code, JSON body (a list of items), and the optional
`response.links` `next` URL. -/
structure PageResponse (α : Type) where
  rateLimit : Option RateLimit
  status : Nat
  body : List α
  next : Option String
deriving DecidableEq

/-- Environment of a paginated fetch: the successive responses the network
delivers, each paired with the value `int(time.time())` observed while
handling it. -/
abbrev Env (α : Type) := List (PageResponse α × Int)

/-- Outcome of a pagination loop: normal return, the `Exception` raised on a
non-success status (carrying `response.json()`), the `ValueError` raised by
`time.sleep` on a negative duration, or exhaustion of the modelled
environment (the loop would issue a request the environment does not cover). -/
inductive FetchResult (α : Type) where
  | ok : List α → FetchResult α
  | apiError : List α → FetchResult α
  | sleepError : FetchResult α
  | outOfEnv : FetchResult α
deriving DecidableEq

/-- The rate-limit block at the top of each loop iteration: when the
remaining-quota header is present and below 10, the loop computes
`sleep_time = reset_time - int(time.time()) + 10` and calls
`time.sleep(sleep_time)`.  Returns the list of sleeps performed (empty or a
singleton), or an error when the computed duration is negative, in which case
`time.sleep` raises `ValueError`. -/
def rateLimitCheck (rl : Option RateLimit) (now : Int) : Except Unit (List Int) :=
  match rl with
  | none => Except.ok []
  | some r =>
      if r.remaining < 10 then
        if r.reset - now + 10 < 0 then Except.error ()
        else Except.ok [r.reset - now + 10]
      else Except.ok []

/-- The sleep durations a single environment entry gives rise to: the
singleton `reset - now + 10` exactly when the remaining-quota header is
present with value below 10, and none otherwise. -/
def sleepsAt {α : Type} (e : PageResponse α × Int) : List Int :=
  match e.1.rateLimit with
  | some r => if r.remaining < 10 then [r.reset - e.2 + 10] else []
  | none => []

/-- All sleep durations a run over `env` performs, in order. -/
def expectedSleeps {α : Type} (env : Env α) : List Int :=
  (env.map sleepsAt).flatten

/-- The URL requested by each successive loop iteration, starting from `url`
and following each response's `next` link. -/
def urlsOf {α : Type} : Env α → String → List String
  | [], _ => []
  | e :: rest, url => url :: urlsOf rest (e.1.next.getD "")

/-- The URL the loop holds after consuming the given environment entries
(following each `next` link, with a missing link modelled as the empty
string, on which the `while url` guard exits). -/
def chainUrl {α : Type} : Env α → String → String
  | [], url => url
  | e :: rest, _ => chainUrl rest (e.1.next.getD "")

/-- Core of the three `get_paginated_data` loops.  `gl403` selects the GitLab
variant, whose only difference from the GitHub one is an early
`return []` on HTTP 403.  One iteration: check the `while url` guard, issue
the request (consume one environment entry, recording the URL in `reqs`),
run the rate-limit block, on the GitLab variant return `[]` on status 403,
raise on a status other than 200, extend `items` with the body, and follow
the `next` link if present, else `break` and return `items`. -/
def pagGo {α : Type} (gl403 : Bool) (env : Env α) (url : String) (items : List α)
    (reqs : List String) (sleeps : List Int) :
    List String × List Int × FetchResult α :=
  if url = "" then (reqs, sleeps, FetchResult.ok items)
  else
    match env with
    | [] => (reqs, sleeps, FetchResult.outOfEnv)
    | (resp, now) :: rest =>
      let reqs' := reqs ++ [url]
      match rateLimitCheck resp.rateLimit now with
      | Except.error _ => (reqs', sleeps, FetchResult.sleepError)
      | Except.ok ds =>
        let sleeps' := sleeps ++ ds
        if gl403 = true ∧ resp.status = 403 then (reqs', sleeps', FetchResult.ok [])
        else if resp.status ≠ 200 then (reqs', sleeps', FetchResult.apiError resp.body)
        else
          let items' := items ++ resp.body
          match resp.next with
          | some u => pagGo gl403 rest u items' reqs' sleeps'
          | none => (reqs', sleeps', FetchResult.ok items')

/-- The pagination loop `get_paginated_data` of
`src/extract_data/extract_data_github.py` (lines 7-40), run against an
environment; returns the requested URLs, the sleeps performed, and the
outcome. -/
def ExtractDataGithub.get_paginated_data {α : Type} (env : Env α) (url : String) :
    List String × List Int × FetchResult α :=
  pagGo false env url [] [] []

/-- The pagination loop `get_paginated_data` of
`src/extract_users/extract_users.py` (lines 7-31), which is textually
identical to the one in `extract_data_github.py`. -/
def ExtractUsers.get_paginated_data {α : Type} (env : Env α) (url : String) :
    List String × List Int × FetchResult α :=
  pagGo false env url [] [] []

/-- The pagination loop `get_paginated_data` of
`src/extract_data/extract_gitlab.py` (lines 8-35): identical to the GitHub
one except that an HTTP 403 response makes it return the empty list instead
of raising. -/
def ExtractGitlab.get_paginated_data {α : Type} (env : Env α) (url : String) :
    List String × List Int × FetchResult α :=
  pagGo true env url [] [] []

/-- Well-formedness of one intermediate page: HTTP 200 and a usable
(non-missing, non-empty) `next` link. -/
def PageOk {α : Type} (e : PageResponse α × Int) : Prop :=
  e.1.status = 200 ∧ e.1.next.getD "" ≠ ""

instance {α : Type} (e : PageResponse α × Int) : Decidable (PageOk e) := by
  unfold PageOk; infer_instance

/-- The resume set of `extract_data_github.py` (line 222):
`processed_repos = set([repo['repo'] for repo in repo_data_list])`.  A loaded
row is modelled by the only field the line reads, its `repo` name; the set is
modelled by the list with its membership relation. -/
def ExtractDataGithub.processed_repos (repo_data_list : List String) : List String :=
  repo_data_list

/-- The skip policy of the main loop of `extract_data_github.py`
(lines 228-231): each repository of the current list is processed unless its
name is in `processed_repos`, in which case `continue` skips it whole. -/
def ExtractDataGithub.reposToProcess (repo_data_list : List String)
    (repos : List String) : List String :=
  repos.filter (fun r => decide (r ∉ ExtractDataGithub.processed_repos repo_data_list))

/-- The resume set of `extract_gitlab.py` (line 145):
`set([repo['project'] for repo in repo_data_list if 'project' in repo])`.
A loaded row is modelled by its optional `project` field; rows without the
field are skipped when building the set. -/
def ExtractGitlab.processed_projects (repo_data_list : List (Option String)) :
    List String :=
  repo_data_list.filterMap id

/-- The skip policy of the main loop of `extract_gitlab.py` (lines 152-156):
each project of the current list is processed unless its name is in
`processed_projects`. -/
def ExtractGitlab.projectsToProcess (repo_data_list : List (Option String))
    (project_names : List String) : List String :=
  project_names.filter
    (fun p => decide (p ∉ ExtractGitlab.processed_projects repo_data_list))

/-- Whitespace characters stripped by Python's `str.strip()` and `int(str)`
(the ASCII ones; the scripts only ever meet ASCII text). -/
def isPyWs (c : Char) : Bool :=
  c = ' ' || c = '\t' || c = '\n' || c = '\r' || c = '\x0b' || c = '\x0c'

/-- Strip leading and trailing Python whitespace from a character list. -/
def stripWs (cs : List Char) : List Char :=
  ((cs.dropWhile isPyWs).reverse.dropWhile isPyWs).reverse

/-- Python `s.strip().lower()`, the normalization `combine_mrs_and_issues`
applies to every compared identity field: strip surrounding whitespace, then
lowercase (ASCII, which is all the scripts meet). -/
def pyNorm (s : String) : String :=
  String.mk ((stripWs s.data).map Char.toLower)

/-- The author object of a GitLab merge request or issue, restricted to the
two fields `combine_mrs_and_issues` reads: `author['username']` and
`author['name']`. -/
structure Author where
  username : String
  name : String
deriving DecidableEq

/-- A GitLab contributor as read by `combine_mrs_and_issues`: display name,
email, and the optional `username` field accessed via
`contributor.get('username', '')`. -/
structure GLContributor where
  name : String
  email : String
  username : Option String
deriving DecidableEq

/-- The function `combine_mrs_and_issues` of `src/extract_data/extract_gitlab.py`
(lines 113-138).  The source mutates each contributor dict, storing
`merge_requests` and `issues` counts; the embedding returns, per contributor
in order, the pair of counts.  A merge request or issue is counted for a
contributor when the author's normalized username equals the contributor's
normalized username, or the author's normalized name equals the contributor's
normalized name, or the author's normalized username equals the contributor's
normalized email. -/
def ExtractGitlab.combine_mrs_and_issues (contributors : List GLContributor)
    (merge_requests : List Author) (issues : List Author) :
    List (GLContributor × Nat × Nat) :=
  contributors.map (fun contributor =>
    let contributor_name := pyNorm contributor.name
    let contributor_email := pyNorm contributor.email
    let contributor_username := pyNorm (contributor.username.getD "")
    let mr_count := (merge_requests.filter (fun mr =>
      pyNorm mr.username == contributor_username ||
      pyNorm mr.name == contributor_name ||
      pyNorm mr.username == contributor_email)).length
    let issue_count := (issues.filter (fun issue =>
      pyNorm issue.username == contributor_username ||
      pyNorm issue.name == contributor_name ||
      pyNorm issue.username == contributor_email)).length
    (contributor, mr_count, issue_count))

/-- Specification-side reading of the matching policy: at least one of the
three case-insensitive, whitespace-trimmed comparisons holds. -/
def specAuthorMatch (c : GLContributor) (a : Author) : Prop :=
  pyNorm a.username = pyNorm (c.username.getD "") ∨
  pyNorm a.name = pyNorm c.name ∨
  pyNorm a.username = pyNorm c.email

instance (c : GLContributor) (a : Author) : Decidable (specAuthorMatch c a) := by
  unfold specAuthorMatch; infer_instance

/-- Numeric value of a decimal digit character. -/
def digitVal (c : Char) : Nat :=
  c.toNat - 48

/-- Digit-string body of Python `int`: decimal digits with single underscores
allowed strictly between digits, consuming the whole list. -/
def pyDigitsGo : List Char → Nat → Option Nat
  | [], acc => some acc
  | '_' :: c :: rest, acc =>
      if c.isDigit then pyDigitsGo rest (acc * 10 + digitVal c) else none
  | ['_'], _ => none
  | c :: rest, acc =>
      if c.isDigit then pyDigitsGo rest (acc * 10 + digitVal c) else none

/-- Parse a nonempty all-digit (with embedded underscores) list: the first
character must be a digit. -/
def pyDigitsStart : List Char → Option Nat
  | [] => none
  | c :: rest => if c.isDigit then pyDigitsGo rest (digitVal c) else none

/-- Python's `int(str)` conversion: optional surrounding whitespace, an
optional single sign, then decimal digits with single underscores between
digits.  `none` models the `ValueError` the script catches. -/
def pyInt (s : String) : Option Int :=
  match stripWs s.toList with
  | '+' :: rest => (pyDigitsStart rest).map (fun n => (n : Int))
  | '-' :: rest => (pyDigitsStart rest).map (fun n => -(n : Int))
  | rest => (pyDigitsStart rest).map (fun n => (n : Int))

/-- Python `repo_name.split('.')[0]`: the substring before the first `.`
(the whole string when there is no dot). -/
def splitDotHead (s : String) : String :=
  String.mk (s.toList.takeWhile (fun c => c ≠ '.'))

/-- The filtering portion of `get_repos` in `src/extract_users/extract_users.py`
(lines 40-50), with the paginated fetch abstracted into the `repos` name list
and `datetime.now().year` passed as `current_year`: a name is kept when
`int(repo_name.split('.')[0])` succeeds and lies in
`[start_year, current_year]`; a `ValueError` means the name is silently
skipped. -/
def ExtractUsers.get_repos (repos : List String) (start_year : Int)
    (current_year : Int) : List String :=
  repos.filter (fun repo_name =>
    match pyInt (splitDotHead repo_name) with
    | some year => decide (start_year ≤ year ∧ year ≤ current_year)
    | none => false)

/-- Greedy bounded digit run: consume up to `n` further digits, extending the
accumulator, mirroring how `strptime` matches a numeric directive. -/
def takeDigitsGo : Nat → Nat → List Char → Nat × List Char
  | 0, acc, cs => (acc, cs)
  | Nat.succ n, acc, c :: cs =>
      if c.isDigit then takeDigitsGo n (acc * 10 + digitVal c) cs else (acc, c :: cs)
  | Nat.succ _, acc, [] => (acc, [])

/-- Greedy digit run of at most `maxN` digits, at least one. -/
def takeDigits (maxN : Nat) : List Char → Option (Nat × List Char)
  | [] => none
  | c :: cs =>
      if c.isDigit then some (takeDigitsGo (maxN - 1) (digitVal c) cs) else none

/-- Exactly `n` digits. -/
def takeDigitsExactGo : Nat → Nat → List Char → Option (Nat × List Char)
  | 0, acc, cs => some (acc, cs)
  | Nat.succ n, acc, c :: cs =>
      if c.isDigit then takeDigitsExactGo n (acc * 10 + digitVal c) cs else none
  | Nat.succ _, _, [] => none

/-- Exactly `n` digits, starting with an empty accumulator. -/
def takeDigitsExact (n : Nat) (cs : List Char) : Option (Nat × List Char) :=
  takeDigitsExactGo n 0 cs

/-- Expect one literal character. -/
def expectChar (ch : Char) : List Char → Option (List Char)
  | [] => none
  | c :: cs => if c = ch then some cs else none

/-- Gregorian leap year, as validated by `datetime`. -/
def isLeap (y : Nat) : Bool :=
  (y % 4 = 0 && y % 100 ≠ 0) || y % 400 = 0

/-- Number of days of a month, as validated by `datetime`. -/
def daysInMonth (y m : Nat) : Nat :=
  if m = 2 then (if isLeap y then 29 else 28)
  else if m = 4 ∨ m = 6 ∨ m = 9 ∨ m = 11 then 30
  else 31

/-- Zero-padded two-digit field of `strftime`. -/
def pad2 (n : Nat) : String :=
  if n < 10 then "0" ++ toString n else toString n

/-- Zero-padded four-digit year field of `strftime('%Y')`. -/
def pad4 (n : Nat) : String :=
  if n < 10 then "000" ++ toString n
  else if n < 100 then "00" ++ toString n
  else if n < 1000 then "0" ++ toString n
  else toString n

/-- Python `strftime('%Y-%m')` of a datetime with the given year and month. -/
def fmtYm (y m : Nat) : String :=
  pad4 y ++ "-" ++ pad2 m

/-- Python `datetime.strptime(date_str, '%Y-%m-%dT%H:%M:%SZ')` reduced to the fields
`strftime('%Y-%m')` reads: parses the GitHub commit timestamp format
(numeric directives matched greedily up to their width, calendar fields
validated as `datetime` does) and returns the year and month, `none`
modelling the `ValueError` on a malformed string. -/
def ghParseTimestamp (s : String) : Option (Nat × Nat) := do
  let cs := s.toList
  let (y, cs) ← takeDigits 4 cs
  let cs ← expectChar '-' cs
  let (m, cs) ← takeDigits 2 cs
  let cs ← expectChar '-' cs
  let (d, cs) ← takeDigits 2 cs
  let cs ← expectChar 'T' cs
  let (hh, cs) ← takeDigits 2 cs
  let cs ← expectChar ':' cs
  let (mi, cs) ← takeDigits 2 cs
  let cs ← expectChar ':' cs
  let (ss, cs) ← takeDigits 2 cs
  let cs ← expectChar 'Z' cs
  guard (cs = [])
  guard (1 ≤ y ∧ y ≤ 9999 ∧ 1 ≤ m ∧ m ≤ 12 ∧ 1 ≤ d ∧ d ≤ daysInMonth y m ∧
    hh ≤ 23 ∧ mi ≤ 59 ∧ ss ≤ 59)
  pure (y, m)

/-- The `'%Y-%m'` month key of a GitHub commit timestamp. -/
def ghMonthKey (s : String) : Option String :=
  (ghParseTimestamp s).map (fun p => fmtYm p.1 p.2)

/-- Fractional-second part of an ISO-8601 time: one or more digits. -/
def glParseFrac : List Char → Option (List Char)
  | [] => none
  | c :: rest => if c.isDigit then some (rest.dropWhile Char.isDigit) else none

/-- Time part of an ISO-8601 string as accepted by `dateutil`'s `isoparse`:
`HH`, optionally `:MM`, optionally `:SS`, optionally a fractional part. -/
def glParseTime (cs : List Char) : Option (List Char) := do
  let (hh, cs) ← takeDigitsExact 2 cs
  guard (hh ≤ 23)
  match cs with
  | ':' :: cs => do
      let (mi, cs) ← takeDigitsExact 2 cs
      guard (mi ≤ 59)
      match cs with
      | ':' :: cs => do
          let (ss, cs) ← takeDigitsExact 2 cs
          guard (ss ≤ 59)
          match cs with
          | '.' :: cs => glParseFrac cs
          | ',' :: cs => glParseFrac cs
          | cs => pure cs
      | cs => pure cs
  | cs => pure cs

/-- Numeric UTC-offset tail: `HH`, `HHMM` or `HH:MM`. -/
def glParseOffNum (cs : List Char) : Option (List Char) := do
  let (hh, cs) ← takeDigitsExact 2 cs
  guard (hh ≤ 23)
  match cs with
  | ':' :: cs => do
      let (mi, cs) ← takeDigitsExact 2 cs
      guard (mi ≤ 59)
      pure cs
  | c :: cs' =>
      if c.isDigit then do
        let (mi, cs2) ← takeDigitsExact 2 (c :: cs')
        guard (mi ≤ 59)
        pure cs2
      else pure (c :: cs')
  | [] => pure ([] : List Char)

/-- UTC-offset part of an ISO-8601 string: absent, `Z`, or a signed numeric
offset. -/
def glParseOffset : List Char → Option (List Char)
  | [] => some []
  | 'Z' :: rest => some rest
  | 'z' :: rest => some rest
  | '+' :: rest => glParseOffNum rest
  | '-' :: rest => glParseOffNum rest
  | _ => none

/-- Python `dateutil.parser.isoparse(date_str)` reduced to the fields
`strftime('%Y-%m')` reads: parses a calendar-date ISO-8601 timestamp
(`YYYY-MM-DD`, optional time and offset) and returns year and month, `none`
modelling the parse error on a malformed string.  `strftime` uses the naive
local fields, so the offset is validated but does not shift the month. -/
def glParseMonth (s : String) : Option (Nat × Nat) := do
  let cs := s.toList
  let (y, cs) ← takeDigitsExact 4 cs
  let cs ← expectChar '-' cs
  let (m, cs) ← takeDigitsExact 2 cs
  let cs ← expectChar '-' cs
  let (d, cs) ← takeDigitsExact 2 cs
  guard (1 ≤ y ∧ y ≤ 9999 ∧ 1 ≤ m ∧ m ≤ 12 ∧ 1 ≤ d ∧ d ≤ daysInMonth y m)
  match cs with
  | [] => pure (y, m)
  | sep :: rest => do
      guard (sep = 'T' ∨ sep = 't' ∨ sep = ' ')
      let rest ← glParseTime rest
      let rest ← glParseOffset rest
      guard (rest = [])
      pure (y, m)

/-- The `'%Y-%m'` month key of a GitLab commit timestamp. -/
def glMonthKey (s : String) : Option String :=
  (glParseMonth s).map (fun p => fmtYm p.1 p.2)

/-- Shared body of the two `get_commit_history_by_month` functions, which
differ only in the timestamp format they parse (`mk`): iterate over the
commits, parse each timestamp (a failure raises, modelled by `none`), and
increment the count stored under the `'%Y-%m'` key.  The `defaultdict(int)`
is modelled extensionally as a count function, matching Python dict
equality. -/
def histGo (mk : String → Option String) : List String → (String → Nat) →
    Option (String → Nat)
  | [], h => some h
  | c :: rest, h =>
      match mk c with
      | none => none
      | some k => histGo mk rest (fun k' => if k' = k then h k' + 1 else h k')

/-- Function `get_commit_history_by_month` of `src/extract_data/extract_data_github.py`
(lines 171-187); a commit is modelled by the only field read,
`commit['commit']['author']['date']`. -/
def ExtractDataGithub.get_commit_history_by_month (commits : List String) :
    Option (String → Nat) :=
  histGo ghMonthKey commits (fun _ => 0)

/-- Function `get_commit_history_by_month` of `src/extract_data/extract_gitlab.py`
(lines 79-87); a commit is modelled by the only field read,
`commit['created_at']`. -/
def ExtractGitlab.get_commit_history_by_month (commits : List String) :
    Option (String → Nat) :=
  histGo glMonthKey commits (fun _ => 0)

/-- Response of a `languages` endpoint: status code and, for the success
case, the key list of the returned JSON mapping. -/
structure LangResponse where
  status : Nat
  keys : List String
deriving DecidableEq

/-- Function `get_languages` of `src/extract_data/extract_data_github.py`
(lines 152-169): raises on any status other than 200 (the error carrying
`response.json()`, modelled by the key list), else returns the key list. -/
def ExtractDataGithub.get_languages (resp : LangResponse) :
    Except (List String) (List String) :=
  if resp.status ≠ 200 then Except.error resp.keys
  else Except.ok resp.keys

/-- Function `get_languages` of `src/extract_data/extract_gitlab.py` (lines 67-77):
status 403 yields the empty list instead of raising; any other status other
than 200 raises; else the key list is returned. -/
def ExtractGitlab.get_languages (resp : LangResponse) :
    Except (List String) (List String) :=
  if resp.status = 403 then Except.ok []
  else if resp.status ≠ 200 then Except.error resp.keys
  else Except.ok resp.keys

/-- One day of the GraphQL contribution calendar. -/
structure ContributionDay where
  date : String
  contributionCount : Int
deriving DecidableEq

/-- One week of the GraphQL contribution calendar. -/
structure ContribWeek where
  contributionDays : List ContributionDay
deriving DecidableEq

/-- Per-repository contribution bucket: the `contributions.totalCount`
field, the only one read. -/
structure RepoContributions where
  totalCount : Int
deriving DecidableEq

/-- One node of the `repositories` list: its primary-language name.  `none`
covers both a `null` `primaryLanguage` and a missing name, which the source
skips alike. -/
structure RepoNode where
  primaryLanguage : Option String
deriving DecidableEq

/-- The `user` payload of the GraphQL response, with exactly the fields
`_parse_user_data` reads. -/
structure UserPayload where
  totalContributions : Int
  weeks : List ContribWeek
  commitContribs : List RepoContributions
  prContribs : List RepoContributions
  issueContribs : List RepoContributions
  reviewContribs : List RepoContributions
  repoTotalCount : Int
  repoNodes : List RepoNode
deriving DecidableEq

/-- A GraphQL response as inspected by `get_user_data`: HTTP status, whether
the body has a query-level `errors` field, and the user payload
(`none` models a missing, `null`, or empty — hence falsy — payload). -/
structure GraphQLResponse where
  status : Nat
  hasErrors : Bool
  user : Option UserPayload
deriving DecidableEq

/-- The per-type contribution totals of `_parse_user_data`. -/
structure ContributionTypes where
  commits : Int
  pull_requests : Int
  issues : Int
  reviews : Int
deriving DecidableEq

/-- The summary record a user maps to.  `monthly_contributions` is the month
histogram modelled extensionally; `contribution_types` is `none` for the
empty dict of `_empty_user_data` and `some` for the four-key dict built by
`_parse_user_data`, which are distinct Python values. -/
structure UserSummary where
  contributions : Int
  repositories : Int
  primary_language : String
  monthly_contributions : String → Int
  contribution_types : Option ContributionTypes

/-- Method `GitHubUserData._empty_user_data` of
`src/extract_contributions/extract_contribution.py` (lines 146-160): the
fixed all-zero summary. -/
def GitHubUserData._empty_user_data : UserSummary :=
  { contributions := 0
    repositories := 0
    primary_language := "N/A"
    monthly_contributions := fun _ => 0
    contribution_types := none }

/-- The language-count accumulation of `_parse_user_data`:
`languages[language] = languages.get(language, 0) + 1` on an
insertion-ordered dict, modelled as an association list. -/
def bumpLang : List (String × Nat) → String → List (String × Nat)
  | [], l => [(l, 1)]
  | (k, n) :: rest, l =>
      if k = l then (k, n + 1) :: rest else (k, n) :: bumpLang rest l

/-- The insertion-ordered language-count dict over the repository nodes,
counting each truthy primary-language name. -/
def langCounts : List RepoNode → List (String × Nat) → List (String × Nat)
  | [], acc => acc
  | node :: rest, acc =>
      match node.primaryLanguage with
      | some l => if l = "" then langCounts rest acc else langCounts rest (bumpLang acc l)
      | none => langCounts rest acc

/-- Python `max(languages, key=languages.get)`: the first key, in iteration
order, holding the maximal value; `none` on an empty dict (the source guards
that case and yields the `"N/A"` sentinel). -/
def pyMaxByValGo : List (String × Nat) → String → Nat → String
  | [], best, _ => best
  | (k, v) :: rest, best, bv =>
      if v > bv then pyMaxByValGo rest k v else pyMaxByValGo rest best bv

/-- First maximal key of an association list, Python `max` style. -/
def pyMaxByVal : List (String × Nat) → Option String
  | [] => none
  | (k, v) :: rest => some (pyMaxByValGo rest k v)

/-- The `'%Y-%m'` month key of a `'%Y-%m-%d'` contribution-calendar date, as
computed by `datetime.strptime` followed by `strftime('%Y-%m')`; `none`
models the `ValueError` on a malformed date. -/
def ymdMonthKey (s : String) : Option String := do
  let cs := s.toList
  let (y, cs) ← takeDigits 4 cs
  let cs ← expectChar '-' cs
  let (m, cs) ← takeDigits 2 cs
  let cs ← expectChar '-' cs
  let (d, cs) ← takeDigits 2 cs
  guard (cs = [])
  guard (1 ≤ y ∧ y ≤ 9999 ∧ 1 ≤ m ∧ m ≤ 12 ∧ 1 ≤ d ∧ d ≤ daysInMonth y m)
  pure (fmtYm y m)

/-- The monthly-contribution accumulation of `_parse_user_data` over the
flattened contribution days: `monthly_contributions[month] += count`, with a
parse failure raising. -/
def addDays : List ContributionDay → (String → Int) → Option (String → Int)
  | [], h => some h
  | d :: rest, h =>
      match ymdMonthKey d.date with
      | none => none
      | some k =>
          addDays rest (fun k' => if k' = k then h k' + d.contributionCount else h k')

/-- Method `GitHubUserData._parse_user_data` of
`src/extract_contributions/extract_contribution.py` (lines 99-144).  The
`Except` error is the `ValueError` a malformed calendar date would raise
(propagated, not caught, by `get_user_data`). -/
def GitHubUserData._parse_user_data (u : UserPayload) : Except Unit UserSummary :=
  let languages := langCounts u.repoNodes []
  let primary_language :=
    match pyMaxByVal languages with
    | some l => l
    | none => "N/A"
  match addDays (u.weeks.map (fun w => w.contributionDays)).flatten (fun _ => 0) with
  | none => Except.error ()
  | some monthly =>
      Except.ok
        { contributions := u.totalContributions
          repositories := u.repoTotalCount
          primary_language := primary_language
          monthly_contributions := monthly
          contribution_types := some
            { commits := (u.commitContribs.map (fun r => r.totalCount)).sum
              pull_requests := (u.prContribs.map (fun r => r.totalCount)).sum
              issues := (u.issueContribs.map (fun r => r.totalCount)).sum
              reviews := (u.reviewContribs.map (fun r => r.totalCount)).sum } }

/-- Method `GitHubUserData.get_user_data` of
`src/extract_contributions/extract_contribution.py` (lines 20-97), applied to
the response of its single GraphQL request: on status 200 with a query-level
`errors` field, or with a falsy user payload, the fixed empty summary is
returned; on status 200 with a user payload the parsed summary is returned;
on any other status the empty summary is returned (after logging). -/
def GitHubUserData.get_user_data (resp : GraphQLResponse) : Except Unit UserSummary :=
  if resp.status = 200 then
    if resp.hasErrors = true then Except.ok GitHubUserData._empty_user_data
    else
      match resp.user with
      | none => Except.ok GitHubUserData._empty_user_data
      | some u => GitHubUserData._parse_user_data u
  else Except.ok GitHubUserData._empty_user_data

/-- Truth of a fetch outcome being a normal return rather than a raised
exception. -/
def FetchResult.isOk {α : Type} : FetchResult α → Bool
  | FetchResult.ok _ => true
  | _ => false

/-- The `try/except Exception ... continue` blocks of the `extract_gitlab.py`
main loop (lines 160-166 around the contributors and languages fetches, and
lines 171-190 around each contributor's commits fetch): an exception outcome
of a fetch — the raise on a non-success status, or the `ValueError` of a
negative sleep — is caught, yielding `none` (the current project or
contributor is skipped); a normal return proceeds.  Exhaustion of the
modelled environment, an artifact of the embedding with no Python
counterpart, is also mapped to `none`; no theorem relies on that case. -/
def ExtractGitlab.catchFetchExceptions {α : Type} :
    FetchResult α → Option (List α)
  | FetchResult.ok items => some items
  | FetchResult.apiError _ => none
  | FetchResult.sleepError => none
  | FetchResult.outOfEnv => none

/-- The per-project iteration of the `extract_gitlab.py` main loop
(lines 152-200), restricted to the control flow that decides error handling:
each project is given by its name and the outcome of the fetches inside its
`try`; a project in the resume set is skipped by `continue`, a caught
exception skips the project, and in every case the loop continues with the
remaining projects — the loop itself never propagates an exception raised
inside the `try`. -/
def ExtractGitlab.projectLoop {α : Type} (processed : List String)
    (projects : List (String × FetchResult α)) : List (String × List α) :=
  projects.filterMap (fun p =>
    if p.1 ∈ processed then none
    else (ExtractGitlab.catchFetchExceptions p.2).map (fun cs => (p.1, cs)))

/-- The per-contributor iteration of the `extract_gitlab.py` main loop
(lines 170-190), likewise restricted: each contributor is given by the
outcome of the commits fetch inside the `try`; a caught exception skips the
contributor and the loop continues with the remaining ones. -/
def ExtractGitlab.contributorLoop {α : Type}
    (contributors : List (String × FetchResult α)) : List (String × List α) :=
  contributors.filterMap (fun c =>
    (ExtractGitlab.catchFetchExceptions c.2).map (fun commits => (c.1, commits)))

/-- The per-repository iteration of the `extract_data_github.py` main loop
(lines 228-265), restricted the same way: no `try/except` surrounds the
fetches, so the first exception outcome among the repositories actually
processed aborts the whole loop — the error carries the offending outcome —
and the remaining repositories are never reached. -/
def ExtractDataGithub.repoLoop {α : Type} (processed : List String) :
    List (String × FetchResult α) → Except (FetchResult α) (List (String × List α))
  | [] => Except.ok []
  | (n, fr) :: rest =>
      if n ∈ processed then ExtractDataGithub.repoLoop processed rest
      else
        match fr with
        | FetchResult.ok items =>
            match ExtractDataGithub.repoLoop processed rest with
            | Except.ok out => Except.ok ((n, items) :: out)
            | Except.error e => Except.error e
        | fr => Except.error fr

theorem expectedSleeps_nil {α : Type} : expectedSleeps ([] : Env α) = [] := rfl

theorem expectedSleeps_cons {α : Type} (e : PageResponse α × Int) (rest : Env α) :
    expectedSleeps (e :: rest) = sleepsAt e ++ expectedSleeps rest := by
  simp [expectedSleeps]

theorem rateLimitCheck_of_nonneg {α : Type} (e : PageResponse α × Int)
    (h : ∀ d ∈ sleepsAt e, 0 ≤ d) :
    rateLimitCheck e.1.rateLimit e.2 = Except.ok (sleepsAt e) := by
  cases hrl : e.1.rateLimit with
  | none => simp [rateLimitCheck, sleepsAt, hrl]
  | some r =>
    by_cases hr : r.remaining < 10
    · have h0 : (0 : Int) ≤ r.reset - e.2 + 10 := by
        apply h
        simp [sleepsAt, hrl, hr]
      simp [rateLimitCheck, sleepsAt, hrl, hr]
      omega
    · simp [rateLimitCheck, sleepsAt, hrl, hr]

theorem pagGo_cons_200 {α : Type} (b : Bool) (resp : PageResponse α) (now : Int)
    (rest : Env α) (url : String) (items : List α) (reqs : List String)
    (sleeps : List Int) (hu : url ≠ "") (h200 : resp.status = 200)
    (hsl : ∀ d ∈ sleepsAt ((resp, now) : PageResponse α × Int), 0 ≤ d) :
    pagGo b ((resp, now) :: rest) url items reqs sleeps =
      match resp.next with
      | some u => pagGo b rest u (items ++ resp.body) (reqs ++ [url])
          (sleeps ++ sleepsAt ((resp, now) : PageResponse α × Int))
      | none => (reqs ++ [url],
          sleeps ++ sleepsAt ((resp, now) : PageResponse α × Int),
          FetchResult.ok (items ++ resp.body)) := by
  have hrl := rateLimitCheck_of_nonneg ((resp, now) : PageResponse α × Int) hsl
  simp only [pagGo, if_neg hu]
  rw [hrl]
  simp [h200]

theorem pagGo_append {α : Type} (b : Bool) (suf : Env α) :
    ∀ (pre : Env α) (url : String) (items : List α) (reqs : List String)
      (sleeps : List Int),
      url ≠ "" →
      (∀ e ∈ pre, PageOk e) →
      (∀ d ∈ expectedSleeps pre, 0 ≤ d) →
      pagGo b (pre ++ suf) url items reqs sleeps =
        pagGo b suf (chainUrl pre url)
          (items ++ (pre.map (fun e => e.1.body)).flatten)
          (reqs ++ urlsOf pre url) (sleeps ++ expectedSleeps pre) := by
  intro pre
  induction pre with
  | nil =>
    intro url items reqs sleeps _ _ _
    simp [chainUrl, urlsOf, expectedSleeps]
  | cons e rest ih =>
    intro url items reqs sleeps hu hok hsl
    obtain ⟨resp, now⟩ := e
    obtain ⟨h200, hnext⟩ := hok _ (List.mem_cons_self _ _)
    cases hn : resp.next with
    | none => simp [hn] at hnext
    | some u =>
      have hu' : u ≠ "" := by simpa [hn] using hnext
      have hsl1 : ∀ d ∈ sleepsAt ((resp, now) : PageResponse α × Int), 0 ≤ d := by
        intro d hd
        exact hsl d (by rw [expectedSleeps_cons]; exact List.mem_append_left _ hd)
      rw [List.cons_append,
        pagGo_cons_200 b resp now (rest ++ suf) url items reqs sleeps hu h200 hsl1]
      rw [hn]
      dsimp only
      rw [ih u (items ++ resp.body) (reqs ++ [url])
        (sleeps ++ sleepsAt ((resp, now) : PageResponse α × Int)) hu'
        (fun x hx => hok x (List.mem_cons_of_mem _ hx))
        (fun d hd => hsl d (by rw [expectedSleeps_cons]; exact List.mem_append_right _ hd))]
      simp [chainUrl, urlsOf, hn, expectedSleeps_cons]

theorem chainUrl_ne {α : Type} :
    ∀ (pre : Env α) (url : String), url ≠ "" → (∀ e ∈ pre, PageOk e) →
      chainUrl pre url ≠ ""
  | [], url, hu, _ => hu
  | e :: rest, url, _, hok =>
    chainUrl_ne rest (e.1.next.getD "") (hok e (List.mem_cons_self _ _)).2
      (fun x hx => hok x (List.mem_cons_of_mem _ hx))

theorem urlsOf_append_single {α : Type} :
    ∀ (mid : Env α) (last : PageResponse α × Int) (url : String),
      urlsOf (mid ++ [last]) url = urlsOf mid url ++ [chainUrl mid url]
  | [], _, url => rfl
  | e :: rest, last, url => by
    simp only [List.cons_append, urlsOf, chainUrl, List.append_eq]
    rw [urlsOf_append_single rest last (e.1.next.getD "")]

theorem expectedSleeps_append {α : Type} (l₁ l₂ : Env α) :
    expectedSleeps (l₁ ++ l₂) = expectedSleeps l₁ ++ expectedSleeps l₂ := by
  simp [expectedSleeps]

theorem pagGo_run {α : Type} (b : Bool) (mid : Env α) (last : PageResponse α × Int)
    (url : String) (hu : url ≠ "")
    (hmid : ∀ e ∈ mid, PageOk e)
    (hl200 : last.1.status = 200) (hlnext : last.1.next = none)
    (hsl : ∀ d ∈ expectedSleeps (mid ++ [last]), 0 ≤ d) :
    pagGo b (mid ++ [last]) url [] [] [] =
      (urlsOf (mid ++ [last]) url, expectedSleeps (mid ++ [last]),
        FetchResult.ok (((mid ++ [last]).map (fun e => e.1.body)).flatten)) := by
  have hslmid : ∀ d ∈ expectedSleeps mid, 0 ≤ d := by
    intro d hd
    exact hsl d (by rw [expectedSleeps_append]; exact List.mem_append_left _ hd)
  have hsllast : ∀ d ∈ sleepsAt last, 0 ≤ d := by
    intro d hd
    refine hsl d ?_
    rw [expectedSleeps_append]
    refine List.mem_append_right _ ?_
    rw [expectedSleeps_cons]
    exact List.mem_append_left _ hd
  rw [pagGo_append b [last] mid url [] [] [] hu hmid hslmid]
  have hcu : chainUrl mid url ≠ "" := chainUrl_ne mid url hu hmid
  obtain ⟨resp, now⟩ := last
  rw [pagGo_cons_200 b resp now [] (chainUrl mid url) _ _ _ hcu hl200 hsllast]
  rw [show resp.next = none from hlnext]
  dsimp only
  rw [urlsOf_append_single, expectedSleeps_append, expectedSleeps_cons]
  simp [expectedSleeps]

/-- C1: in every paginated fetch (GitHub variants of `get_paginated_data` in
`extract_data_github.py` and `extract_users.py`), over any complete page
sequence, the loop suspends exactly at the responses whose remaining-quota
header is below 10 — each such response contributing the single sleep
`reset - now + 10`, i.e. until the reported reset time plus a 10-second
safety margin, and no other response contributing any — and the sleeps leave
the request stream intact: the URLs requested are the start URL followed by
each page's `next` link, and the result is exactly the in-order
concatenation of all pages' items, none lost and none duplicated. -/
theorem claim_C1_rate_limit_suspension {α : Type} (mid : Env α)
    (last : PageResponse α × Int) (url : String)
    (hu : url ≠ "") (hmid : ∀ e ∈ mid, PageOk e)
    (hl200 : last.1.status = 200) (hlnext : last.1.next = none)
    (hsl : ∀ d ∈ expectedSleeps (mid ++ [last]), 0 ≤ d) :
    ExtractDataGithub.get_paginated_data (mid ++ [last]) url =
      (urlsOf (mid ++ [last]) url, expectedSleeps (mid ++ [last]),
        FetchResult.ok (((mid ++ [last]).map (fun e => e.1.body)).flatten)) ∧
    ExtractUsers.get_paginated_data (mid ++ [last]) url =
      (urlsOf (mid ++ [last]) url, expectedSleeps (mid ++ [last]),
        FetchResult.ok (((mid ++ [last]).map (fun e => e.1.body)).flatten)) ∧
    (∀ e ∈ mid ++ [last], ∀ r, e.1.rateLimit = some r →
      (r.remaining < 10 → sleepsAt e = [r.reset - e.2 + 10]) ∧
      (¬ r.remaining < 10 → sleepsAt e = [])) ∧
    (∀ e ∈ mid ++ [last], e.1.rateLimit = none → sleepsAt e = []) := by
  refine ⟨pagGo_run false mid last url hu hmid hl200 hlnext hsl,
    pagGo_run false mid last url hu hmid hl200 hlnext hsl, ?_, ?_⟩
  · intro e _ r hr
    constructor <;> intro hrem <;> simp [sleepsAt, hr, hrem]
  · intro e _ hr
    simp [sleepsAt, hr]

/-- Witness for C1: a two-page fetch whose first response reports 5 remaining
requests with reset time 100 observed at time 95; the loop sleeps exactly
once, for 100 - 95 + 10 = 15 seconds, requests the start URL and then the
`next` link, and returns both pages' items in order. -/
theorem claim_C1_rate_limit_suspension_witness :
    ExtractDataGithub.get_paginated_data
      ([({ rateLimit := some { remaining := 5, reset := 100 }, status := 200,
            body := [1, 2], next := some "p2" }, (95 : Int))] ++
        [({ rateLimit := some { remaining := 50, reset := 200 }, status := 200,
            body := [3], next := none }, (200 : Int))]) "p1" =
      (["p1", "p2"], [15], FetchResult.ok [1, 2, 3]) := by
  have h := (claim_C1_rate_limit_suspension (α := Nat)
    [({ rateLimit := some { remaining := 5, reset := 100 }, status := 200,
        body := [1, 2], next := some "p2" }, (95 : Int))]
    ({ rateLimit := some { remaining := 50, reset := 200 }, status := 200,
        body := [3], next := none }, (200 : Int)) "p1"
    (by decide) (by decide) (by decide) (by decide) (by decide)).1
  rw [h]
  decide

/-- C2: for every starting URL and complete page sequence in which each
response except the last supplies a `next` link, `get_paginated_data` (GitHub
and GitLab variants) terminates with the concatenation of all pages as a
single sequence, preserving page order and item order within each page. -/
theorem claim_C2_pagination_concatenation {α : Type} (mid : Env α)
    (last : PageResponse α × Int) (url : String)
    (hu : url ≠ "") (hmid : ∀ e ∈ mid, PageOk e)
    (hl200 : last.1.status = 200) (hlnext : last.1.next = none)
    (hsl : ∀ d ∈ expectedSleeps (mid ++ [last]), 0 ≤ d) :
    (ExtractDataGithub.get_paginated_data (mid ++ [last]) url).2.2 =
      FetchResult.ok (((mid ++ [last]).map (fun e => e.1.body)).flatten) ∧
    (ExtractGitlab.get_paginated_data (mid ++ [last]) url).2.2 =
      FetchResult.ok (((mid ++ [last]).map (fun e => e.1.body)).flatten) := by
  unfold ExtractDataGithub.get_paginated_data ExtractGitlab.get_paginated_data
  constructor
  · rw [pagGo_run false mid last url hu hmid hl200 hlnext hsl]
  · rw [pagGo_run true mid last url hu hmid hl200 hlnext hsl]

/-- Witness for C2: a three-page fetch returns the three pages' items
concatenated in order, on both the GitHub and the GitLab loop. -/
theorem claim_C2_pagination_concatenation_witness :
    (ExtractDataGithub.get_paginated_data
      ([({ rateLimit := none, status := 200, body := [10, 11], next := some "b" },
          (0 : Int)),
        ({ rateLimit := none, status := 200, body := ([] : List Nat), next := some "c" },
          (0 : Int))] ++
        [({ rateLimit := none, status := 200, body := [12], next := none }, (0 : Int))])
      "a").2.2 = FetchResult.ok [10, 11, 12] ∧
    (ExtractGitlab.get_paginated_data
      ([({ rateLimit := none, status := 200, body := [10, 11], next := some "b" },
          (0 : Int)),
        ({ rateLimit := none, status := 200, body := ([] : List Nat), next := some "c" },
          (0 : Int))] ++
        [({ rateLimit := none, status := 200, body := [12], next := none }, (0 : Int))])
      "a").2.2 = FetchResult.ok [10, 11, 12] := by
  have h := claim_C2_pagination_concatenation (α := Nat)
    [({ rateLimit := none, status := 200, body := [10, 11], next := some "b" }, (0 : Int)),
     ({ rateLimit := none, status := 200, body := ([] : List Nat), next := some "c" }, (0 : Int))]
    ({ rateLimit := none, status := 200, body := [12], next := none }, (0 : Int)) "a"
    (by decide) (by decide) (by decide) (by decide) (by decide)
  exact ⟨by rw [h.1]; decide, by rw [h.2]; decide⟩

/-- C3: on both scripts, a repository or project whose name is in the resume
set derived from the loaded rows is skipped entirely and exactly the names
not in that set are processed; with prior output containing repositories
`A, B` and current list `A, B, C`, exactly `C` is processed. -/
theorem claim_C3_resume_skip :
    (∀ (rows repos : List String) (r : String),
      r ∈ ExtractDataGithub.reposToProcess rows repos ↔
        r ∈ repos ∧ r ∉ ExtractDataGithub.processed_repos rows) ∧
    ExtractDataGithub.reposToProcess ["A", "B"] ["A", "B", "C"] = ["C"] ∧
    (∀ (rows : List (Option String)) (projects : List String) (p : String),
      p ∈ ExtractGitlab.projectsToProcess rows projects ↔
        p ∈ projects ∧ p ∉ ExtractGitlab.processed_projects rows) ∧
    ExtractGitlab.projectsToProcess [some "A", some "B"] ["A", "B", "C"] = ["C"] := by
  refine ⟨?_, by decide, ?_, by decide⟩
  · intro rows repos r
    simp [ExtractDataGithub.reposToProcess, List.mem_filter]
  · intro rows projects p
    simp [ExtractGitlab.projectsToProcess, List.mem_filter]

/-- C5: a repository name is kept by the year filter of `get_repos` iff the
substring before its first `.` parses as a Python integer within
`[start_year, current_year]`; names whose prefix does not parse are silently
dropped.  `"2022.1-repo"` is kept for `start_year = 2017` and `"lib-utils"`
is dropped. -/
theorem claim_C5_year_filter :
    (∀ (repos : List String) (start_year current_year : Int) (name : String),
      name ∈ ExtractUsers.get_repos repos start_year current_year ↔
        name ∈ repos ∧ ∃ y, pyInt (splitDotHead name) = some y ∧
          start_year ≤ y ∧ y ≤ current_year) ∧
    ExtractUsers.get_repos ["2022.1-repo", "lib-utils"] 2017 2026 = ["2022.1-repo"] := by
  refine ⟨?_, by decide⟩
  intro repos start_year current_year name
  simp only [ExtractUsers.get_repos, List.mem_filter]
  constructor
  · rintro ⟨hmem, hf⟩
    refine ⟨hmem, ?_⟩
    cases hp : pyInt (splitDotHead name) with
    | none => rw [hp] at hf; simp at hf
    | some y =>
      rw [hp] at hf
      exact ⟨y, rfl, by simpa using hf⟩
  · rintro ⟨hmem, y, hy, h1, h2⟩
    refine ⟨hmem, ?_⟩
    rw [hy]
    simp [h1, h2]

theorem authorMatch_decide (c : GLContributor) (a : Author) :
    (pyNorm a.username == pyNorm (c.username.getD "") ||
     pyNorm a.name == pyNorm c.name ||
     pyNorm a.username == pyNorm c.email) = decide (specAuthorMatch c a) := by
  rcases h : decide (specAuthorMatch c a) with _ | _
  · have := of_decide_eq_false h
    unfold specAuthorMatch at this
    push_neg at this
    simp [this.1, this.2.1, this.2.2]
  · have := of_decide_eq_true h
    unfold specAuthorMatch at this
    rcases this with h1 | h1 | h1 <;> simp [h1]

theorem combine_counts (cs : List GLContributor) (mrs iss : List Author) :
    ExtractGitlab.combine_mrs_and_issues cs mrs iss =
      cs.map (fun c =>
        (c, mrs.countP (fun a => decide (specAuthorMatch c a)),
            iss.countP (fun a => decide (specAuthorMatch c a)))) := by
  unfold ExtractGitlab.combine_mrs_and_issues
  refine List.map_congr_left ?_
  intro c _
  simp only
  have hf : ∀ l : List Author,
      (l.filter (fun a =>
        pyNorm a.username == pyNorm (c.username.getD "") ||
        pyNorm a.name == pyNorm c.name ||
        pyNorm a.username == pyNorm c.email)).length =
      l.countP (fun a => decide (specAuthorMatch c a)) := by
    intro l
    rw [← List.countP_eq_length_filter]
    exact List.countP_congr (fun a _ => by rw [authorMatch_decide])
  rw [← hf mrs, ← hf iss]

/-- C4: the GitLab combine step counts, for each contributor, exactly the
merge requests and issues whose author matches by at least one of the three
case-insensitive, whitespace-trimmed comparisons (author username equals
contributor username, author name equals contributor display name, author
username equals contributor email); a merge request authored by username
`"Jdoe"` is counted for a contributor with username `"jdoe"`, and a record
whose only overlap with the contributor is an unrelated email is not
counted. -/
theorem claim_C4_contributor_matching :
    (∀ (cs : List GLContributor) (mrs iss : List Author) (c : GLContributor)
        (n m : Nat),
      (c, n, m) ∈ ExtractGitlab.combine_mrs_and_issues cs mrs iss ↔
        c ∈ cs ∧ n = mrs.countP (fun a => decide (specAuthorMatch c a)) ∧
          m = iss.countP (fun a => decide (specAuthorMatch c a))) ∧
    ExtractGitlab.combine_mrs_and_issues
      [{ name := "John Doe", email := "john@host.org", username := some "jdoe" }]
      [{ username := "Jdoe", name := "Johnny" }] [] =
      [({ name := "John Doe", email := "john@host.org", username := some "jdoe" },
        1, 0)] ∧
    ExtractGitlab.combine_mrs_and_issues
      [{ name := "Bob B", email := "shared@mail.com", username := some "bob" }]
      [{ username := "alice", name := "Alice A" }] [] =
      [({ name := "Bob B", email := "shared@mail.com", username := some "bob" },
        0, 0)] := by
  refine ⟨?_, by decide, by decide⟩
  intro cs mrs iss c n m
  rw [combine_counts]
  simp only [List.mem_map]
  constructor
  · rintro ⟨c', hc', heq⟩
    have h1 : c' = c := congrArg Prod.fst heq
    subst h1
    have h2 := congrArg (fun p => p.2.1) heq
    have h3 := congrArg (fun p => p.2.2) heq
    simp only at h2 h3
    exact ⟨hc', h2.symm, h3.symm⟩
  · rintro ⟨hc, hn, hm⟩
    exact ⟨c, hc, by rw [← hn, ← hm]⟩

theorem histGo_char (mk : String → Option String) :
    ∀ (cs : List String) (h0 : String → Nat),
      histGo mk cs h0 =
        if ∀ c ∈ cs, (mk c).isSome = true then
          some (fun k => h0 k + (cs.filterMap mk).count k)
        else none := by
  intro cs
  induction cs with
  | nil =>
    intro h0
    have hfun : (fun k => h0 k + (List.filterMap mk ([] : List String)).count k) = h0 := by
      funext k
      simp
    rw [if_pos (by simp), hfun]
    rfl
  | cons c rest ih =>
    intro h0
    cases hmk : mk c with
    | none => simp [histGo, hmk, List.forall_mem_cons]
    | some k =>
      simp only [histGo, hmk]
      rw [ih]
      by_cases hall : ∀ x ∈ rest, (mk x).isSome = true
      · rw [if_pos hall,
          if_pos (List.forall_mem_cons.mpr ⟨by simp [hmk], hall⟩)]
        congr 1
        funext k'
        simp only [List.filterMap_cons, hmk, List.count_cons]
        by_cases hk : k' = k
        · simp [hk]
          omega
        · simp [hk, Ne.symm hk]
      · rw [if_neg hall, if_neg (by simp [List.forall_mem_cons, hall])]

theorem histGo_perm (mk : String → Option String) (l₁ l₂ : List String)
    (h : l₁.Perm l₂) (h0 : String → Nat) :
    histGo mk l₁ h0 = histGo mk l₂ h0 := by
  rw [histGo_char, histGo_char]
  have hiff : (∀ c ∈ l₁, (mk c).isSome = true) ↔ (∀ c ∈ l₂, (mk c).isSome = true) :=
    ⟨fun hh c hc => hh c (h.mem_iff.mpr hc), fun hh c hc => hh c (h.mem_iff.mp hc)⟩
  by_cases hc : ∀ c ∈ l₁, (mk c).isSome = true
  · rw [if_pos hc, if_pos (hiff.mp hc)]
    congr 1
    funext k
    rw [(h.filterMap mk).count_eq k]
  · rw [if_neg hc, if_neg (fun hh => hc (hiff.mpr hh))]

/-- C7: both `get_commit_history_by_month` functions are invariant under
every permutation of the commit list; on commits timestamped in 2023-06
(twice) and 2023-07 (once), the histogram maps `"2023-06"` to 2 and
`"2023-07"` to 1 and every other key to 0, regardless of input order. -/
theorem claim_C7_month_histogram_perm :
    (∀ (l₁ l₂ : List String), l₁.Perm l₂ →
      ExtractDataGithub.get_commit_history_by_month l₁ =
        ExtractDataGithub.get_commit_history_by_month l₂ ∧
      ExtractGitlab.get_commit_history_by_month l₁ =
        ExtractGitlab.get_commit_history_by_month l₂) ∧
    (∃ h, ExtractDataGithub.get_commit_history_by_month
        ["2023-06-01T10:00:00Z", "2023-06-15T12:30:00Z", "2023-07-01T09:00:00Z"] =
          some h ∧
      h "2023-06" = 2 ∧ h "2023-07" = 1 ∧
      ∀ k, k ≠ "2023-06" → k ≠ "2023-07" → h k = 0) := by
  constructor
  · intro l₁ l₂ hperm
    exact ⟨histGo_perm ghMonthKey l₁ l₂ hperm _, histGo_perm glMonthKey l₁ l₂ hperm _⟩
  · have hfm : List.filterMap ghMonthKey
        ["2023-06-01T10:00:00Z", "2023-06-15T12:30:00Z", "2023-07-01T09:00:00Z"] =
        ["2023-06", "2023-06", "2023-07"] := by decide
    refine ⟨fun k => 0 + (List.filterMap ghMonthKey
      ["2023-06-01T10:00:00Z", "2023-06-15T12:30:00Z", "2023-07-01T09:00:00Z"]).count k,
      ?_, by rw [hfm]; decide, by rw [hfm]; decide, ?_⟩
    · unfold ExtractDataGithub.get_commit_history_by_month
      rw [histGo_char, if_pos (by decide)]
    · intro k h1 h2
      rw [hfm]
      simp [List.count_eq_zero, h1, h2]

/-- Witness for C7: the histogram of the three sample commits equals, on both
the GitHub and the GitLab variant, the histogram of their reversal. -/
theorem claim_C7_month_histogram_perm_witness :
    ExtractDataGithub.get_commit_history_by_month
      ["2023-06-01T10:00:00Z", "2023-06-15T12:30:00Z", "2023-07-01T09:00:00Z"] =
      ExtractDataGithub.get_commit_history_by_month
        ["2023-07-01T09:00:00Z", "2023-06-15T12:30:00Z", "2023-06-01T10:00:00Z"] ∧
    ExtractGitlab.get_commit_history_by_month
      ["2023-06-01T10:00:00Z", "2023-06-15T12:30:00Z", "2023-07-01T09:00:00Z"] =
      ExtractGitlab.get_commit_history_by_month
        ["2023-07-01T09:00:00Z", "2023-06-15T12:30:00Z", "2023-06-01T10:00:00Z"] :=
  claim_C7_month_histogram_perm.1
    ["2023-06-01T10:00:00Z", "2023-06-15T12:30:00Z", "2023-07-01T09:00:00Z"]
    ["2023-07-01T09:00:00Z", "2023-06-15T12:30:00Z", "2023-06-01T10:00:00Z"]
    (by decide)

/-- C8: for every GraphQL response carrying a query-level `errors` field or a
missing/empty user payload, `get_user_data` returns (without raising) the
fixed summary with 0 contributions, 0 repositories, primary language
`"N/A"`, and empty monthly-contribution and contribution-type mappings. -/
theorem claim_C8_graphql_bad_user (resp : GraphQLResponse)
    (h200 : resp.status = 200)
    (hbad : resp.hasErrors = true ∨ resp.user = none) :
    GitHubUserData.get_user_data resp =
      Except.ok GitHubUserData._empty_user_data ∧
    GitHubUserData._empty_user_data.contributions = 0 ∧
    GitHubUserData._empty_user_data.repositories = 0 ∧
    GitHubUserData._empty_user_data.primary_language = "N/A" ∧
    (∀ k, GitHubUserData._empty_user_data.monthly_contributions k = 0) ∧
    GitHubUserData._empty_user_data.contribution_types = none := by
  refine ⟨?_, rfl, rfl, rfl, fun _ => rfl, rfl⟩
  unfold GitHubUserData.get_user_data
  rw [if_pos h200]
  rcases hbad with hb | hb
  · rw [if_pos hb]
  · by_cases he : resp.hasErrors = true
    · rw [if_pos he]
    · rw [if_neg he, hb]

/-- Witness for C8: a response with a query-level `errors` field and one with
a missing user payload both map to the fixed empty summary. -/
theorem claim_C8_graphql_bad_user_witness :
    GitHubUserData.get_user_data
      { status := 200, hasErrors := true, user := none } =
      Except.ok GitHubUserData._empty_user_data ∧
    GitHubUserData.get_user_data
      { status := 200, hasErrors := false, user := none } =
      Except.ok GitHubUserData._empty_user_data :=
  ⟨(claim_C8_graphql_bad_user { status := 200, hasErrors := true, user := none }
      rfl (Or.inl rfl)).1,
   (claim_C8_graphql_bad_user { status := 200, hasErrors := false, user := none }
      rfl (Or.inr rfl)).1⟩

theorem pagGo_cons_403 {α : Type} (resp : PageResponse α) (now : Int)
    (rest : Env α) (url : String) (items : List α) (reqs : List String)
    (sleeps : List Int) (hu : url ≠ "") (h403 : resp.status = 403)
    (hsl : ∀ d ∈ sleepsAt ((resp, now) : PageResponse α × Int), 0 ≤ d) :
    pagGo true ((resp, now) :: rest) url items reqs sleeps =
      (reqs ++ [url],
        sleeps ++ sleepsAt ((resp, now) : PageResponse α × Int),
        FetchResult.ok []) := by
  have hrl := rateLimitCheck_of_nonneg ((resp, now) : PageResponse α × Int) hsl
  simp only [pagGo, if_neg hu]
  rw [hrl]
  simp [h403]

theorem pagGo_cons_apiError {α : Type} (b : Bool) (resp : PageResponse α)
    (now : Int) (rest : Env α) (url : String) (items : List α)
    (reqs : List String) (sleeps : List Int) (hu : url ≠ "")
    (hst : resp.status ≠ 200) (h403 : b = true → resp.status ≠ 403)
    (hsl : ∀ d ∈ sleepsAt ((resp, now) : PageResponse α × Int), 0 ≤ d) :
    pagGo b ((resp, now) :: rest) url items reqs sleeps =
      (reqs ++ [url],
        sleeps ++ sleepsAt ((resp, now) : PageResponse α × Int),
        FetchResult.apiError resp.body) := by
  have hrl := rateLimitCheck_of_nonneg ((resp, now) : PageResponse α × Int) hsl
  simp only [pagGo, if_neg hu]
  rw [hrl]
  have hnot : ¬ (b = true ∧ resp.status = 403) := fun hh => h403 hh.1 hh.2
  simp [hnot, hst]

theorem pagGo_cons_sleepError {α : Type} (b : Bool) (resp : PageResponse α)
    (now : Int) (rest : Env α) (url : String) (items : List α)
    (reqs : List String) (sleeps : List Int) (hu : url ≠ "")
    (r : RateLimit) (hrl : resp.rateLimit = some r) (hrem : r.remaining < 10)
    (hneg : r.reset - now + 10 < 0) :
    pagGo b ((resp, now) :: rest) url items reqs sleeps =
      (reqs ++ [url], sleeps, FetchResult.sleepError) := by
  simp only [pagGo, if_neg hu]
  rw [show rateLimitCheck resp.rateLimit now = Except.error () from by
    simp [rateLimitCheck, hrl, hrem, hneg]]

/-- C9: in the GitLab pagination loop, a 403 on any page after the first
makes the whole fetch return the empty list, discarding every item already
accumulated from the earlier successful pages of the same resource. -/
theorem claim_C9_gitlab_403_discards {α : Type} (pre : Env α)
    (r : PageResponse α) (t : Int) (suf : Env α) (url : String)
    (hpre : pre ≠ []) (hu : url ≠ "") (hok : ∀ e ∈ pre, PageOk e)
    (hsl : ∀ d ∈ expectedSleeps pre, 0 ≤ d)
    (hslr : ∀ d ∈ sleepsAt ((r, t) : PageResponse α × Int), 0 ≤ d)
    (h403 : r.status = 403) :
    (ExtractGitlab.get_paginated_data (pre ++ (r, t) :: suf) url).2.2 =
      FetchResult.ok [] := by
  unfold ExtractGitlab.get_paginated_data
  rw [pagGo_append true ((r, t) :: suf) pre url [] [] [] hu hok hsl]
  rw [pagGo_cons_403 r t suf (chainUrl pre url) _ _ _
    (chainUrl_ne pre url hu hok) h403 hslr]

/-- Witness for C9: a first page delivering two items followed by a 403
yields the empty list on the GitLab loop, the accumulated items discarded. -/
theorem claim_C9_gitlab_403_discards_witness :
    (ExtractGitlab.get_paginated_data
      ([({ rateLimit := none, status := 200, body := [7, 8], next := some "p2" },
          (0 : Int))] ++
        ({ rateLimit := none, status := 403, body := ([] : List Nat), next := none },
          (0 : Int)) :: []) "p1").2.2 = FetchResult.ok [] :=
  claim_C9_gitlab_403_discards
    [({ rateLimit := none, status := 200, body := [7, 8], next := some "p2" }, (0 : Int))]
    { rateLimit := none, status := 403, body := ([] : List Nat), next := none }
    (0 : Int) [] "p1" (by decide) (by decide) (by decide) (by decide)
    (by decide) rfl

/-- C10: in every paginated fetcher, a reached rate-limit trigger
(remaining-quota below 10) whose reported reset time lies more than 10
seconds before the observed current time makes the computed sleep duration
`reset - now + 10` negative, and `time.sleep` then raises instead of the
fetch proceeding: the run ends in the sleep error. -/
theorem claim_C10_negative_sleep_raises {α : Type} (pre : Env α)
    (r : PageResponse α) (t : Int) (suf : Env α) (url : String)
    (rl : RateLimit) (hu : url ≠ "") (hok : ∀ e ∈ pre, PageOk e)
    (hsl : ∀ d ∈ expectedSleeps pre, 0 ≤ d)
    (hrl : r.rateLimit = some rl) (hrem : rl.remaining < 10)
    (hpast : rl.reset < t - 10) :
    (ExtractDataGithub.get_paginated_data (pre ++ (r, t) :: suf) url).2.2 =
      FetchResult.sleepError ∧
    (ExtractUsers.get_paginated_data (pre ++ (r, t) :: suf) url).2.2 =
      FetchResult.sleepError ∧
    (ExtractGitlab.get_paginated_data (pre ++ (r, t) :: suf) url).2.2 =
      FetchResult.sleepError := by
  have hneg : rl.reset - t + 10 < 0 := by omega
  have hcu := chainUrl_ne pre url hu hok
  refine ⟨?_, ?_, ?_⟩
  · unfold ExtractDataGithub.get_paginated_data
    rw [pagGo_append false ((r, t) :: suf) pre url [] [] [] hu hok hsl]
    rw [pagGo_cons_sleepError false r t suf (chainUrl pre url) _ _ _ hcu rl hrl hrem hneg]
  · unfold ExtractUsers.get_paginated_data
    rw [pagGo_append false ((r, t) :: suf) pre url [] [] [] hu hok hsl]
    rw [pagGo_cons_sleepError false r t suf (chainUrl pre url) _ _ _ hcu rl hrl hrem hneg]
  · unfold ExtractGitlab.get_paginated_data
    rw [pagGo_append true ((r, t) :: suf) pre url [] [] [] hu hok hsl]
    rw [pagGo_cons_sleepError true r t suf (chainUrl pre url) _ _ _ hcu rl hrl hrem hneg]

/-- Witness for C10: a response reporting 3 remaining requests with reset
time 0 observed at time 100 computes sleep duration 0 - 100 + 10 = -90 and
ends all three fetchers in the sleep error. -/
theorem claim_C10_negative_sleep_raises_witness :
    (ExtractDataGithub.get_paginated_data
      (([] : Env Nat) ++
        ({ rateLimit := some { remaining := 3, reset := 0 }, status := 200,
            body := [1], next := none }, (100 : Int)) :: []) "u").2.2 =
      FetchResult.sleepError ∧
    (ExtractGitlab.get_paginated_data
      (([] : Env Nat) ++
        ({ rateLimit := some { remaining := 3, reset := 0 }, status := 200,
            body := [1], next := none }, (100 : Int)) :: []) "u").2.2 =
      FetchResult.sleepError := by
  have h := claim_C10_negative_sleep_raises ([] : Env Nat)
    { rateLimit := some { remaining := 3, reset := 0 }, status := 200,
      body := [1], next := none } (100 : Int) [] "u"
    { remaining := 3, reset := 0 }
    (by decide) (by decide) (by decide) rfl (by decide) (by decide)
  exact ⟨h.1, h.2.2⟩

/-- Counterexample to C6 as stated: on the GitHub GraphQL path,
`get_user_data` meeting HTTP 500 does not raise a fatal error carrying the
response body — it returns the fixed empty summary — so it is false that
every non-200 status on the GitHub paths aborts the run. -/
theorem claim_C6_counterexample :
    GitHubUserData.get_user_data
      { status := 500, hasErrors := false, user := none } =
      Except.ok GitHubUserData._empty_user_data ∧
    ∀ e, GitHubUserData.get_user_data
      { status := 500, hasErrors := false, user := none } ≠ Except.error e :=
  ⟨rfl, fun _ h => Except.noConfusion h⟩

/-- C6 (amended): HTTP 200 is the only success status of the fetchers; on
the GitLab paths a 403 yields an empty result for that resource instead of
raising; any other non-success status on the GitLab REST paths raises an
error carrying the response body, which, when it arises inside the main
loop's per-project or per-contributor `try/except` (the contributors,
languages and commits fetches), is caught: that project or contributor is
skipped and the run continues with the remaining ones; on the GitHub REST
paths every non-200 status raises a fatal error carrying the response body,
which no handler catches — the run aborts and the remaining repositories are
never reached; and the GitHub GraphQL user-summary path absorbs any non-200
status into the fixed empty summary without raising. -/
theorem claim_C6_error_policy {α : Type} :
    (∀ (r : PageResponse α) (t : Int) (rest : Env α) (url : String),
      url ≠ "" → (∀ d ∈ sleepsAt ((r, t) : PageResponse α × Int), 0 ≤ d) →
      r.status = 403 →
      (ExtractGitlab.get_paginated_data ((r, t) :: rest) url).2.2 =
        FetchResult.ok []) ∧
    (∀ (r : PageResponse α) (t : Int) (rest : Env α) (url : String),
      url ≠ "" → (∀ d ∈ sleepsAt ((r, t) : PageResponse α × Int), 0 ≤ d) →
      r.status ≠ 200 → r.status ≠ 403 →
      (ExtractGitlab.get_paginated_data ((r, t) :: rest) url).2.2 =
        FetchResult.apiError r.body) ∧
    (∀ (r : PageResponse α) (t : Int) (rest : Env α) (url : String),
      url ≠ "" → (∀ d ∈ sleepsAt ((r, t) : PageResponse α × Int), 0 ≤ d) →
      r.status ≠ 200 →
      (ExtractDataGithub.get_paginated_data ((r, t) :: rest) url).2.2 =
        FetchResult.apiError r.body ∧
      (ExtractUsers.get_paginated_data ((r, t) :: rest) url).2.2 =
        FetchResult.apiError r.body) ∧
    (∀ resp : LangResponse, resp.status = 403 →
      ExtractGitlab.get_languages resp = Except.ok []) ∧
    (∀ resp : LangResponse, resp.status ≠ 200 → resp.status ≠ 403 →
      ExtractGitlab.get_languages resp = Except.error resp.keys) ∧
    (∀ resp : LangResponse, resp.status ≠ 200 →
      ExtractDataGithub.get_languages resp = Except.error resp.keys) ∧
    (∀ resp : GraphQLResponse, resp.status ≠ 200 →
      GitHubUserData.get_user_data resp =
        Except.ok GitHubUserData._empty_user_data) ∧
    (∀ (processed : List String) (pre post : List (String × FetchResult α))
        (n : String) (b : List α),
      ExtractGitlab.projectLoop processed
          (pre ++ (n, FetchResult.apiError b) :: post) =
        ExtractGitlab.projectLoop processed pre ++
          ExtractGitlab.projectLoop processed post) ∧
    (∀ (pre post : List (String × FetchResult α)) (n : String) (b : List α),
      ExtractGitlab.contributorLoop (pre ++ (n, FetchResult.apiError b) :: post) =
        ExtractGitlab.contributorLoop pre ++ ExtractGitlab.contributorLoop post) ∧
    (∀ (processed : List String) (pre post : List (String × FetchResult α))
        (n : String) (b : List α),
      (∀ p ∈ pre, p.1 ∈ processed ∨ p.2.isOk = true) → n ∉ processed →
      ExtractDataGithub.repoLoop processed
          (pre ++ (n, FetchResult.apiError b) :: post) =
        Except.error (FetchResult.apiError b)) := by
  refine ⟨?_, ?_, ?_, ?_, ?_, ?_, ?_, ?_, ?_, ?_⟩
  · intro r t rest url hu hsl h403
    unfold ExtractGitlab.get_paginated_data
    rw [pagGo_cons_403 r t rest url _ _ _ hu h403 hsl]
  · intro r t rest url hu hsl hst h403
    unfold ExtractGitlab.get_paginated_data
    rw [pagGo_cons_apiError true r t rest url _ _ _ hu hst (fun _ => h403) hsl]
  · intro r t rest url hu hsl hst
    constructor
    · unfold ExtractDataGithub.get_paginated_data
      rw [pagGo_cons_apiError false r t rest url _ _ _ hu hst
        (fun hb => absurd hb (by simp)) hsl]
    · unfold ExtractUsers.get_paginated_data
      rw [pagGo_cons_apiError false r t rest url _ _ _ hu hst
        (fun hb => absurd hb (by simp)) hsl]
  · intro resp h403
    unfold ExtractGitlab.get_languages
    rw [if_pos h403]
  · intro resp hst h403
    unfold ExtractGitlab.get_languages
    rw [if_neg h403, if_pos hst]
  · intro resp hst
    unfold ExtractDataGithub.get_languages
    rw [if_pos hst]
  · intro resp hst
    unfold GitHubUserData.get_user_data
    rw [if_neg hst]
  · intro processed pre post n b
    unfold ExtractGitlab.projectLoop
    rw [List.filterMap_append]
    congr 1
    rw [List.filterMap_cons]
    simp [ExtractGitlab.catchFetchExceptions]
  · intro pre post n b
    unfold ExtractGitlab.contributorLoop
    rw [List.filterMap_append]
    congr 1
  · intro processed pre post n b
    induction pre with
    | nil =>
      intro _ hn
      rw [List.nil_append]
      simp only [ExtractDataGithub.repoLoop, if_neg hn]
    | cons p rest ih =>
      intro hpre hn
      obtain ⟨pn, pf⟩ := p
      have hrest : ∀ q ∈ rest, q.1 ∈ processed ∨ q.2.isOk = true :=
        fun q hq => hpre q (List.mem_cons_of_mem _ hq)
      rcases hpre (pn, pf) (List.mem_cons_self _ _) with hmem | hok
      · rw [List.cons_append]
        simp only [ExtractDataGithub.repoLoop, if_pos hmem]
        exact ih hrest hn
      · cases pf with
        | ok items =>
          rw [List.cons_append]
          by_cases hm : pn ∈ processed
          · simp only [ExtractDataGithub.repoLoop, if_pos hm]
            exact ih hrest hn
          · simp only [ExtractDataGithub.repoLoop, if_neg hm]
            rw [ih hrest hn]
        | apiError e => simp [FetchResult.isOk] at hok
        | sleepError => simp [FetchResult.isOk] at hok
        | outOfEnv => simp [FetchResult.isOk] at hok

/-- Witness for C6 (amended): concrete non-success responses — a GitLab 403
page fetch yields the empty list, a GitLab 500 page fetch and a GitHub 404
page fetch raise carrying the body, a GitLab 403 languages fetch yields the
empty list, a GraphQL 500 yields the fixed empty summary, the GitLab project
loop skips a project whose fetch raised and still processes the projects
around it, and the GitHub repository loop aborts at the raising repository,
never reaching the one after it. -/
theorem claim_C6_error_policy_witness :
    (ExtractGitlab.get_paginated_data
      [({ rateLimit := none, status := 403, body := ([] : List Nat), next := none },
        (0 : Int))] "u").2.2 = FetchResult.ok [] ∧
    (ExtractGitlab.get_paginated_data
      [({ rateLimit := none, status := 500, body := [9], next := none },
        (0 : Int))] "u").2.2 = FetchResult.apiError [9] ∧
    (ExtractDataGithub.get_paginated_data
      [({ rateLimit := none, status := 404, body := [5], next := none },
        (0 : Int))] "u").2.2 = FetchResult.apiError [5] ∧
    ExtractGitlab.get_languages { status := 403, keys := ["Python"] } =
      Except.ok [] ∧
    GitHubUserData.get_user_data { status := 500, hasErrors := false, user := none } =
      Except.ok GitHubUserData._empty_user_data ∧
    ExtractGitlab.projectLoop ([] : List String)
      ([("A", FetchResult.ok [1])] ++
        ("B", FetchResult.apiError [2]) :: [("C", FetchResult.ok [3])]) =
      [("A", [1]), ("C", [3])] ∧
    ExtractDataGithub.repoLoop ([] : List String)
      ([("A", FetchResult.ok [1])] ++
        ("B", FetchResult.apiError [2]) :: [("C", FetchResult.ok [3])]) =
      Except.error (FetchResult.apiError [2]) := by
  have h := claim_C6_error_policy (α := Nat)
  refine ⟨h.1 _ (0 : Int) [] "u" (by decide) (by decide) rfl,
    h.2.1 _ (0 : Int) [] "u" (by decide) (by decide) (by decide) (by decide),
    (h.2.2.1 _ (0 : Int) [] "u" (by decide) (by decide) (by decide)).1,
    h.2.2.2.1 _ rfl,
    h.2.2.2.2.2.2.1 _ (by decide), ?_, ?_⟩
  · rw [h.2.2.2.2.2.2.2.1 [] [("A", FetchResult.ok [1])] [("C", FetchResult.ok [3])]
      "B" [2]]
    decide
  · exact h.2.2.2.2.2.2.2.2.2 [] [("A", FetchResult.ok [1])]
      [("C", FetchResult.ok [3])] "B" [2] (by decide) (by decide)
